import Mathlib

/-!
Verification development for the jamf-api-tool repository.

Shallow embedding of the core components described in the specification:
the Endpoint Catalog (jamf_api_lib/api_objects.py), the Transport command
builder and session handling (jamf_api_lib/curl.py), the Delete Executor
retry loop (jamf_api_lib/api_delete.py), the interactive confirmation
helper (jamf_api_lib/actions.py), and the usage-resolver classification and
deletion-orchestration logic of jamf_api_tool.py.

Python machine integers are modelled as Int, Python strings as String,
Python lists of strings as List String, and Python dicts as association
lists with insert-or-overwrite semantics.  Fallible operations return
Option.  I/O (the HTTP round trip, stdin, the temp-directory files) is
modelled by explicit parameters and state records.

The file is organised as all definitions first, then all theorems.
-/

set_option maxHeartbeats 1000000

/-! ## String helpers

Python substring containment (the `in` operator on strings) and
whitespace splitting (str.split with no argument), modelled on lists of
characters so that everything reduces in the kernel. -/

/-- Does the first list occur as a contiguous prefix of the second?
Models Python str.startswith on character lists. -/
def charsPre : List Char → List Char → Bool
  | [], _ => true
  | _ :: _, [] => false
  | a :: as, b :: bs => a == b && charsPre as bs

/-- Does the first list occur contiguously anywhere inside the second?
Models the Python substring test. -/
def charsSub : List Char → List Char → Bool
  | p, [] => p.isEmpty
  | p, b :: bs => charsPre p (b :: bs) || charsSub p bs

/-- Python substring containment on strings: pat occurs in s. -/
def strIn (pat s : String) : Bool :=
  charsSub pat.data s.data

/-- Python whitespace splitting: str.split with no argument splits on runs
of spaces and drops empty fields.  Accumulator holds the current word
reversed. -/
def pySplitAux : List Char → List Char → List (List Char)
  | [], acc => if acc.isEmpty then [] else [acc.reverse]
  | c :: cs, acc =>
      if c = ' ' then
        if acc.isEmpty then pySplitAux cs [] else acc.reverse :: pySplitAux cs []
      else pySplitAux cs (c :: acc)

/-- Python str.split() on a string, returning the list of words. -/
def pySplitWs (s : String) : List String :=
  (pySplitAux s.data []).map String.mk

/-- Python str.rstrip applied with the semicolon character: drop trailing
semicolons. -/
def rstripSemi (s : String) : String :=
  String.mk ((s.data.reverse.dropWhile (fun c => c == ';')).reverse)

/-! ## Endpoint Catalog (jamf_api_lib/api_objects.py)

The catalog is a Python dict literal; lookup of an unknown object type
raises KeyError, modelled by Option (none = UnknownObjectType). -/

/-- The api_endpoint_list dict literal of api_objects.api_endpoints, as an
association list in source order. -/
def api_endpoint_list : List (String × String) :=
  [("account", "JSSResource/accounts"),
   ("advanced_computer_search", "JSSResource/advancedcomputersearches"),
   ("advanced_mobile_device_search", "JSSResource/advancedmobiledevicesearches"),
   ("category", "api/v1/categories"),
   ("extension_attribute", "JSSResource/computerextensionattributes"),
   ("computer_group", "JSSResource/computergroups"),
   ("computer_prestage", "api/v2/computer-prestages"),
   ("computer", "JSSResource/computers"),
   ("configuration_profile", "JSSResource/mobiledeviceconfigurationprofiles"),
   ("dock_item", "JSSResource/dockitems"),
   ("failover", "api/v1/sso/failover"),
   ("icon", "api/v1/icon"),
   ("jamf_pro_version", "api/v1/jamf-pro-version"),
   ("jcds", "api/v1/jcds"),
   ("logflush", "JSSResource/logflush"),
   ("ldap_server", "JSSResource/ldapservers"),
   ("mac_application", "JSSResource/macapplications"),
   ("mobile_device_application", "JSSResource/mobiledeviceapplications"),
   ("mobile_device_group", "JSSResource/mobiledevicegroups"),
   ("package", "JSSResource/packages"),
   ("package_upload", "dbfileupload"),
   ("patch_policy", "JSSResource/patchpolicies"),
   ("patch_software_title", "JSSResource/patchsoftwaretitles"),
   ("oauth", "api/oauth/token"),
   ("os_x_configuration_profile", "JSSResource/osxconfigurationprofiles"),
   ("policy", "JSSResource/policies"),
   ("policy_icon", "JSSResource/fileuploads/policies"),
   ("restricted_software", "JSSResource/restrictedsoftware"),
   ("script", "uapi/v1/scripts"),
   ("token", "api/v1/auth/token"),
   ("volume_purchasing_locations", "api/v1/volume-purchasing-locations")]

/-- Association-list lookup in source order (Python dict indexing, with
none for the KeyError case). -/
def alist_lookup : List (String × String) → String → Option String
  | [], _ => none
  | (k, v) :: rest, key => if key = k then some v else alist_lookup rest key

/-- api_objects.api_endpoints: return the endpoint path for the object
type, or none (KeyError / UnknownObjectType) for anything else. -/
def api_endpoints (object_type : String) : Option String :=
  alist_lookup api_endpoint_list object_type

/-! ## Transport response classification (jamf_api_lib/curl.py, status_check)

curl.status_check prints a message and returns the string break for the
stop statuses; for any other status it falls off the end of the function,
returning Python None (modelled as none). -/

/-- curl.status_check restricted to its return value: some break for the
stop statuses 200/201/204 (success), 409 (conflict), 404 (not found) and
401 (permission denied); none otherwise. -/
def status_check (status_code : Int) : Option String :=
  if status_code = 200 ∨ status_code = 201 ∨ status_code = 204 then some "break"
  else if status_code = 409 then some "break"
  else if status_code = 404 then some "break"
  else if status_code = 401 then some "break"
  else none

/-! ## Delete Executor (jamf_api_lib/api_delete.py)

api_delete.delete_api_object loops: increment count, issue a DELETE via
curl.request, break if status_check classifies the response as a stop,
break with a warning if count exceeds 5, otherwise sleep count seconds and
go round again; it finally returns the status code of the last response.
delete_uapi_object is the identical loop (only the URL shape differs).

The transport is abstracted as the stream of response status codes:
responses n is the status code of request number n+1.  The observable
behaviour of one call is the triple (number of DELETE requests issued,
list of sleep durations in order, returned status code). -/

/-- One run of the while-True loop of delete_api_object starting from a
given value of count (the source starts at 0).  Returns (total requests
issued, sleeps performed, returned status code).  Termination: the loop
breaks as soon as count exceeds 5. -/
def delete_loop (responses : Nat → Int) (count : Nat) : Nat × List Nat × Int :=
  let c := count + 1
  let s := responses count
  if status_check s = some "break" then (c, [], s)
  else if _h5 : 5 < c then (c, [], s)
  else
    let rest := delete_loop responses c
    (rest.1, c :: rest.2.1, rest.2.2)
termination_by 6 - count
decreasing_by omega

/-- api_delete.delete_api_object, observed as (requests issued, sleeps,
returned status code), with the HTTP transport abstracted as the response
stream.  The URL built from jamf_url, the endpoint path and the object id
does not influence these observables. -/
def delete_api_object (responses : Nat → Int) : Nat × List Nat × Int :=
  delete_loop responses 0

/-! ## Usage Resolver classification (jamf_api_tool.py)

handle_packages (and analogously handle_groups) computes, per candidate,
one 0/1 flag per reference collection and takes their conjunction; the
candidate is then recorded in the unused or used dict, keyed by its id.
Python dict keys compare by value across types, so keys are modelled as a
sum of the two value kinds occurring here (ints and strings). -/

/-- A Python value used as a dict key or id in the usage resolver: the
listings yield int ids, while the guard on the used dict tests a string
name against the keys. -/
inductive PyKey where
  | vint (i : Int)
  | vstr (s : String)
deriving DecidableEq

/-- One listed resource as consumed by the classify loop: its id and name
fields. -/
structure Package where
  id : PyKey
  name : String
deriving DecidableEq

/-- Python dict key-membership test (the in operator on a dict). -/
def dict_has_key (d : List (PyKey × String)) (k : PyKey) : Bool :=
  d.any (fun e => decide (e.1 = k))

/-- Python dict item assignment: overwrite the value at an existing key,
else append the new pair. -/
def dict_insert (k : PyKey) (v : String) (d : List (PyKey × String)) :
    List (PyKey × String) :=
  if dict_has_key d k then d.map (fun e => if e.1 = k then (k, v) else e)
  else d ++ [(k, v)]

/-- One unused-in flag of the classify phase: 1 when the reference
collection is empty (Python falsy) or does not contain the name, 0 when
the non-empty collection contains the name. -/
def unused_flag (refs : List String) (name : String) : Nat :=
  if refs ≠ [] then (if name ∉ refs then 1 else 0) else 1

/-- The package verdict of handle_packages: unused iff the three flags
(policies, patch titles, prestages) are all 1. -/
def package_unused (pols titles prestages : List String) (name : String) : Bool :=
  decide (unused_flag pols name = 1 ∧ unused_flag titles name = 1 ∧
    unused_flag prestages name = 1)

/-- The group verdict of handle_groups: unused iff the seven flags (smart
group criteria, advanced searches, policies, Mac App Store apps,
configuration profiles, patch policies, restricted software) are all 1. -/
def group_unused (s1 s2 s3 s4 s5 s6 s7 : List String) (name : String) : Bool :=
  decide (unused_flag s1 name = 1 ∧ unused_flag s2 name = 1 ∧ unused_flag s3 name = 1 ∧
    unused_flag s4 name = 1 ∧ unused_flag s5 name = 1 ∧ unused_flag s6 name = 1 ∧
    unused_flag s7 name = 1)

/-- The same conjunction-of-flags verdict over an arbitrary list of
reference sets (the shape shared by the 3-set package case and the 7-set
group case), used to state monotonicity in the number of sets. -/
def classify_unused (name : String) (sets : List (List String)) : Bool :=
  sets.all (fun s => decide (unused_flag s name = 1))

/-- The per-package body of the classify loop of handle_packages: an
unused verdict records the package in the unused dict; otherwise it is
recorded in the used dict unless its NAME already occurs among the KEYS
of the used dict (the source guard tests the name against a dict keyed by
id). -/
def classify_package (pols titles prestages : List String)
    (acc : List (PyKey × String) × List (PyKey × String)) (pkg : Package) :
    List (PyKey × String) × List (PyKey × String) :=
  if package_unused pols titles prestages pkg.name then
    (acc.1, dict_insert pkg.id pkg.name acc.2)
  else if ¬ dict_has_key acc.1 (PyKey.vstr pkg.name) then
    (dict_insert pkg.id pkg.name acc.1, acc.2)
  else acc

/-- The classify phase of handle_packages over the whole listing, starting
from the empty used and unused dicts; returns (used, unused). -/
def classify_packages (pols titles prestages : List String) (pkgs : List Package) :
    List (PyKey × String) × List (PyKey × String) :=
  pkgs.foldl (classify_package pols titles prestages) ([], [])

/-- Modelled from the spec: api_get.get_api_obj_list (the listing fetch,
not under src/) returns the full listing of an object-type collection.
Per the data model a Resource has identity (type, id), so ids are unique
within one listing, and the legacy-API listings consumed by the package
and group handlers carry integer ids. -/
def IsListing (pkgs : List Package) : Prop :=
  (pkgs.map Package.id).Nodup ∧ ∀ p ∈ pkgs, ∃ i, p.id = PyKey.vint i

/-! ## Interactive confirmation (jamf_api_lib/actions.py) and the
per-item deletion step of the Deletion Orchestrator (jamf_api_tool.py) -/

/-- The outcome of one actions.confirm call: a returned boolean, or a
process exit via the q answer. -/
inductive ConfirmResult where
  | ret (b : Bool)
  | quit
deriving DecidableEq

/-- actions.confirm: read answers until one is empty (return the default),
y or Y (return True), n or N (return False), or q or Q (exit the
process); any other answer re-prompts.  Stdin is modelled as the list of
answers; none models an exhausted stream. -/
def confirm (default : Bool) : List String → Option ConfirmResult
  | [] => none
  | answer :: rest =>
      if answer = "" then some (ConfirmResult.ret default)
      else if answer ∉ ["y", "Y", "n", "N", "q", "Q"] then confirm default rest
      else if answer = "y" ∨ answer = "Y" then some (ConfirmResult.ret true)
      else if answer = "n" ∨ answer = "N" then some (ConfirmResult.ret false)
      else some ConfirmResult.quit

/-- What happened to one candidate item in the orchestrator loop. -/
inductive StepResult where
  | deleted
  | skipped
  | aborted
deriving DecidableEq

/-- The per-item step of handle_packages and handle_policies: delete when
bulk-confirmed, or when the id passes the allow-list filter (member of the
entered id list, or no list entered) and the per-item confirm prompt
(default False) answers yes; the q answer aborts the whole run; otherwise
the item is skipped.  Generic in the id type. -/
def delete_item_step {α : Type} [DecidableEq α] (delete_all : Bool) (id_list : List α)
    (obj_id : α) (answers : List String) : Option StepResult :=
  if delete_all then some StepResult.deleted
  else if obj_id ∈ id_list ∨ id_list = [] then
    match confirm false answers with
    | some (ConfirmResult.ret true) => some StepResult.deleted
    | some (ConfirmResult.ret false) => some StepResult.skipped
    | some ConfirmResult.quit => some StepResult.aborted
    | none => none
  else some StepResult.skipped

/-- The per-item step of handle_groups (and the extension-attribute and
script handlers): the same step without an allow-list. -/
def group_delete_step (delete_all : Bool) (answers : List String) : Option StepResult :=
  if delete_all then some StepResult.deleted
  else
    match confirm false answers with
    | some (ConfirmResult.ret true) => some StepResult.deleted
    | some (ConfirmResult.ret false) => some StepResult.skipped
    | some ConfirmResult.quit => some StepResult.aborted
    | none => none

/-- The upfront bulk prompt of every deletion flow: delete_all is True iff
confirm (default False) answers yes; the q answer exits before any flag is
set. -/
def delete_all_chosen (answers : List String) : Option Bool :=
  match confirm false answers with
  | some (ConfirmResult.ret b) => some b
  | some ConfirmResult.quit => none
  | none => none

/-! ## Transport command construction (jamf_api_lib/curl.py, request) -/

/-- The headers artifact path of curl.request (fixed temp workspace). -/
def headers_file : String := "/tmp/jamf_upload/curl_headers_from_jamf_upload.txt"

/-- The body artifact path of curl.request (fixed temp workspace). -/
def output_file : String := "/tmp/jamf_upload/curl_output_from_jamf_upload.txt"

/-- curl.request, command construction (before the session-cookie and
verbosity handling): the curl argument list.  The data parameter stands
for the body argument; in the chat-webhook branch the source serializes
the body with json.dumps, abstracted here as the given string, whose
content no claim inspects. -/
def buildCurlCmd (method url auth data : String) (xml : Bool) : List String :=
  let cmd := ["/usr/bin/curl", "--silent", "--show-error", "-X", method,
    "-D", headers_file, "--output", output_file, url]
  let cmd :=
    if ¬ strIn "/token" url then cmd ++ ["--header", "authorization: Bearer " ++ auth]
    else if ¬ strIn "slack" url then cmd ++ ["--header", "authorization: Basic " ++ auth]
    else cmd
  if method = "GET" ∨ method = "DELETE" then
    if xml then cmd ++ ["--header", "Accept: application/xml"]
    else cmd ++ ["--header", "Accept: application/json"]
  else if method = "POST" ∧ strIn "hooks.slack.com" url then
    ["/usr/bin/curl", "-X", method, "-H", "Content-type: application/json",
     "--data", data, url]
  else if method = "POST" ∧ strIn "fileuploads" url then
    cmd ++ ["--header", "Content-type: multipart/form-data"] ++
      ["--form", "name=@" ++ data]
  else if method = "POST" ∨ method = "PUT" then
    (if data ≠ "" then cmd ++ ["--upload-file", data] else cmd) ++
      (if strIn "uapi" url then ["--header", "Content-type: application/json"]
       else ["--header", "Content-type: application/xml"])
  else cmd

/-- Is the given string attached as a header value in a curl command, that
is, does it directly follow a --header or -H flag? -/
def hasHeader : List String → String → Bool
  | [], _ => false
  | [_], _ => false
  | a :: b :: rest, h =>
      (decide (a = "--header" ∨ a = "-H") && decide (b = h)) || hasHeader (b :: rest) h

/-! ## Transport session affinity (jamf_api_lib/curl.py, request) -/

/-- The temp-workspace files relevant to session affinity: the response
headers of the previous call (written by curl with the -D flag) and the
cookie jar.  none models a file that does not exist yet; lines are
modelled already stripped. -/
structure TmpState where
  headersFile : Option (List String)
  cookieJar : Option (List String)

/-- The cookie extraction of curl.request: the second whitespace-separated
word of the jar line, with trailing semicolons stripped.  (On a malformed
line with fewer than two words Python would raise IndexError; the model
returns the empty string, a case no theorem relies on.) -/
def extract_cookie (h : String) : String :=
  rstripSemi ((pySplitWs h).getD 1 "")

/-- curl.request, write-session phase: scan the previous response headers
for lines containing APBALANCEID; each match overwrites the cookie jar
with that single line (so the last match wins); a missing headers file
leaves the jar untouched (IOError: pass). -/
def write_session (st : TmpState) : Option (List String) :=
  match st.headersFile with
  | none => st.cookieJar
  | some lines =>
      match (lines.filter (fun h => strIn "APBALANCEID" h)).getLast? with
      | some h => some [h]
      | none => st.cookieJar

/-- curl.request, look-for-existing-session phase: for every jar line
containing APBALANCEID, extract the cookie and attach it with a --cookie
flag; a missing jar attaches nothing. -/
def read_session (jar : Option (List String)) : List String :=
  match jar with
  | none => []
  | some lines =>
      (lines.filter (fun h => strIn "APBALANCEID" h)).foldl
        (fun acc h => acc ++ ["--cookie", extract_cookie h]) []

/-- The session behaviour of one curl.request call: the cookie arguments
attached to this request, and the temp state after the call (the response
headers of this call overwrite the headers file; the jar keeps what the
write-session phase left there). -/
def transport_session (st : TmpState) (responseHeaders : List String) :
    List String × TmpState :=
  let jar := write_session st
  (read_session jar, { headersFile := some responseHeaders, cookieJar := jar })

/-! ## Theorems -/

theorem charsPre_iff (p l : List Char) : charsPre p l = true ↔ ∃ t, l = p ++ t := by
  induction p generalizing l with
  | nil => simp [charsPre]
  | cons a as ih =>
    cases l with
    | nil => simp [charsPre]
    | cons b bs =>
      simp only [charsPre, Bool.and_eq_true, beq_iff_eq, ih, List.cons_append,
        List.cons.injEq]
      constructor
      · rintro ⟨rfl, t, rfl⟩; exact ⟨t, rfl, rfl⟩
      · rintro ⟨t, rfl, rfl⟩; exact ⟨rfl, t, rfl⟩

theorem charsSub_iff (p l : List Char) : charsSub p l = true ↔ ∃ u t, l = u ++ p ++ t := by
  induction l with
  | nil =>
    simp only [charsSub, List.isEmpty_iff]
    constructor
    · rintro rfl; exact ⟨[], [], rfl⟩
    · rintro ⟨u, t, h⟩
      rcases List.append_eq_nil.mp ((List.append_eq_nil.mp h.symm).1) with ⟨-, h2⟩
      exact h2
  | cons b bs ih =>
    simp only [charsSub, Bool.or_eq_true, charsPre_iff, ih]
    constructor
    · rintro (⟨t, ht⟩ | ⟨u, t, ht⟩)
      · exact ⟨[], t, by simpa using ht⟩
      · exact ⟨b :: u, t, by simp [ht]⟩
    · rintro ⟨u, t, h⟩
      cases u with
      | nil => exact Or.inl ⟨t, by simpa using h⟩
      | cons c cs =>
        right
        rw [List.cons_append, List.cons_append] at h
        obtain ⟨rfl, h2⟩ := List.cons.injEq .. ▸ h
        exact ⟨cs, t, by simpa using h2⟩

/-- Substring containment is transitive (needed to relate the several
URL-marker tests of the Transport to each other, for example: a URL
containing the webhook host marker also contains the shorter chat-service
marker). -/
theorem strIn_trans (p q u : String) (h1 : strIn p q = true) (h2 : strIn q u = true) :
    strIn p u = true := by
  unfold strIn at *
  rw [charsSub_iff] at *
  obtain ⟨a, b, hab⟩ := h1
  obtain ⟨c, d, hcd⟩ := h2
  exact ⟨c ++ a, b ++ d, by rw [hcd, hab]; simp⟩

theorem alist_lookup_some_mem (L : List (String × String)) (k v : String)
    (h : alist_lookup L k = some v) : (k, v) ∈ L := by
  induction L with
  | nil => simp [alist_lookup] at h
  | cons e rest ih =>
    obtain ⟨ek, ev⟩ := e
    by_cases hk : k = ek
    · subst hk
      simp [alist_lookup] at h
      subst h
      exact List.mem_cons_self _ _
    · simp only [alist_lookup, if_neg hk] at h
      exact List.mem_cons_of_mem _ (ih h)

theorem alist_lookup_none_of_not_mem (L : List (String × String)) (k : String)
    (h : k ∉ L.map Prod.fst) : alist_lookup L k = none := by
  induction L with
  | nil => rfl
  | cons e rest ih =>
    obtain ⟨ek, ev⟩ := e
    simp only [List.map_cons, List.mem_cons, not_or] at h
    simp only [alist_lookup, if_neg h.1]
    exact ih h.2

/-- In a list of pairs whose second components are pairwise distinct, a
shared second component forces equal first components. -/
theorem snd_nodup_inj (L : List (String × String)) (h : (L.map Prod.snd).Nodup)
    (a₁ a₂ b : String) (h₁ : (a₁, b) ∈ L) (h₂ : (a₂, b) ∈ L) : a₁ = a₂ := by
  induction L with
  | nil => simp at h₁
  | cons e rest ih =>
    simp only [List.map_cons, List.nodup_cons] at h
    rcases List.mem_cons.mp h₁ with he₁ | hr₁ <;>
      rcases List.mem_cons.mp h₂ with he₂ | hr₂
    · rw [← he₂] at he₁; exact congrArg Prod.fst he₁
    · exfalso
      apply h.1
      rw [show e.2 = b from congrArg Prod.snd he₁.symm]
      exact List.mem_map_of_mem Prod.snd hr₂
    · exfalso
      apply h.1
      rw [show e.2 = b from congrArg Prod.snd he₂.symm]
      exact List.mem_map_of_mem Prod.snd hr₁
    · exact ih h.2 hr₁ hr₂

/-- C3: the Endpoint Catalog lookup (api_endpoints) is total over every
declared object type, injective (a shared path template forces equal
object types, so distinct declared types map to distinct path templates),
and fails with UnknownObjectType (modelled as none) for every input
outside the declared enumeration. -/
theorem endpoint_catalog_total_injective_unknown :
    (∀ t ∈ api_endpoint_list.map Prod.fst, ∃ p, api_endpoints t = some p)
    ∧ (∀ t₁ t₂ p, api_endpoints t₁ = some p → api_endpoints t₂ = some p → t₁ = t₂)
    ∧ (∀ t, t ∉ api_endpoint_list.map Prod.fst → api_endpoints t = none) := by
  refine ⟨?_, ?_, ?_⟩
  · intro t ht
    have h : ∀ t ∈ api_endpoint_list.map Prod.fst, (api_endpoints t).isSome = true := by
      decide
    exact Option.isSome_iff_exists.mp (h t ht)
  · intro t₁ t₂ p h₁ h₂
    exact snd_nodup_inj api_endpoint_list (by decide) t₁ t₂ p
      (alist_lookup_some_mem _ _ _ h₁) (alist_lookup_some_mem _ _ _ h₂)
  · intro t ht
    exact alist_lookup_none_of_not_mem _ _ ht

/-- Witness for C3: the catalog resolves the declared type policy, the
injectivity conjunct applies at the concrete path of policy, and the
undeclared type no_such_type fails. -/
theorem endpoint_catalog_total_injective_unknown_witness :
    ("policy" ∈ api_endpoint_list.map Prod.fst ∧ (∃ p, api_endpoints "policy" = some p))
    ∧ ("policy" = "policy")
    ∧ ("no_such_type" ∉ api_endpoint_list.map Prod.fst ∧ api_endpoints "no_such_type" = none) :=
  ⟨⟨by decide, endpoint_catalog_total_injective_unknown.1 "policy" (by decide)⟩,
   endpoint_catalog_total_injective_unknown.2.1 "policy" "policy" "JSSResource/policies"
     (by decide) (by decide),
   ⟨by decide, endpoint_catalog_total_injective_unknown.2.2 "no_such_type" (by decide)⟩⟩

/-- Requests issued by the delete loop: starting from a given count, at
least count + 1 requests are reported (one request is issued before any
break test). -/
theorem delete_loop_requests_ge (responses : Nat → Int) :
    ∀ count, count + 1 ≤ (delete_loop responses count).1 := by
  have H : ∀ n count, 6 - count ≤ n → count + 1 ≤ (delete_loop responses count).1 := by
    intro n
    induction n with
    | zero =>
      intro count hc
      rw [delete_loop]
      by_cases hb : status_check (responses count) = some "break"
      · simp [hb]
      · have h6 : 5 < count + 1 := by omega
        simp [hb, h6]
    | succ n ih =>
      intro count hc
      rw [delete_loop]
      by_cases hb : status_check (responses count) = some "break"
      · simp [hb]
      · by_cases h5 : 5 < count + 1
        · simp [hb, h5]
        · have hr := ih (count + 1) (by omega)
          simp [hb, h5]
          omega
  intro count
  exact H (6 - count) count (by omega)

/-- C1 (code bug evidence): with a response stream that is unclassified on
every attempt (status 500 throughout), delete_api_object issues SIX
DELETE requests, sleeping 1, 2, 3, 4 and 5 seconds after the first five,
and returns 500.  The claim, the specification and the warning message
printed by the code itself all say the executor performs at most 5
attempts; the loop tests count greater than 5 only after having
incremented count and issued the request, so a sixth request goes out. -/
theorem delete_all_unclassified_issues_six_requests :
    delete_api_object (fun _ => 500) = (6, [1, 2, 3, 4, 5], 500) := by
  simp [delete_api_object, delete_loop, status_check]

/-- C2: status_check classifies exactly 200/201/204 (success), 409
(conflict), 404 (not found) and 401 (permission denied) as stop; on a stop
status the Delete Executor returns immediately after one request with that
status and no sleep; on any other status it retries (at least a second
request is issued, after a sleep). -/
theorem delete_stops_immediately_on_stop_status :
    (∀ s : Int, status_check s = some "break" ↔
      (s = 200 ∨ s = 201 ∨ s = 204 ∨ s = 409 ∨ s = 404 ∨ s = 401))
    ∧ (∀ responses : Nat → Int, status_check (responses 0) = some "break" →
        delete_api_object responses = (1, [], responses 0))
    ∧ (∀ responses : Nat → Int, status_check (responses 0) ≠ some "break" →
        2 ≤ (delete_api_object responses).1 ∧ (delete_api_object responses).2.1 ≠ []) := by
  refine ⟨?_, ?_, ?_⟩
  · intro s
    unfold status_check
    split_ifs with h1 h2 h3 h4 <;> simp_all
    omega
  · intro responses h
    rw [delete_api_object, delete_loop]
    simp [h]
  · intro responses h
    have e : delete_api_object responses =
        ((delete_loop responses 1).1, 1 :: (delete_loop responses 1).2.1,
          (delete_loop responses 1).2.2) := by
      rw [delete_api_object, delete_loop]
      simp [h]
    rw [e]
    refine ⟨?_, by simp⟩
    have := delete_loop_requests_ge responses 1
    omega

/-- Witness for C2: a DELETE answered 409 on the first attempt issues
exactly one request, does not sleep, and returns 409. -/
theorem delete_stops_immediately_on_stop_status_witness :
    status_check 409 = some "break" ∧ delete_api_object (fun _ => 409) = (1, [], 409) :=
  ⟨by decide, delete_stops_immediately_on_stop_status.2.1 (fun _ => 409) (by decide)⟩

/-- The unused-in flag is 1 exactly when the reference collection is empty
or does not contain the name. -/
theorem unused_flag_eq_one (refs : List String) (name : String) :
    unused_flag refs name = 1 ↔ (refs = [] ∨ name ∉ refs) := by
  unfold unused_flag
  by_cases he : refs = []
  · simp [he]
  · by_cases hm : name ∈ refs <;> simp [he, hm]

/-- C4: the group verdict is Unused iff, for every one of the seven
reference sets, the set is empty or the name is absent from it (an empty
set is vacuously true in the conjunction); a computer group named
Marketing with all seven collections returned empty classifies as Unused;
and a package whose name occurs in one reference set (for example the
patch-title set, which is then non-empty) classifies as Used. -/
theorem usage_verdict_absent_from_all_sets :
    (∀ s1 s2 s3 s4 s5 s6 s7 name,
      group_unused s1 s2 s3 s4 s5 s6 s7 name = true ↔
        ∀ s ∈ [s1, s2, s3, s4, s5, s6, s7], s = [] ∨ name ∉ s)
    ∧ group_unused [] [] [] [] [] [] [] "Marketing" = true
    ∧ (∀ pols titles prestages name, name ∈ titles →
        package_unused pols titles prestages name = false) := by
  refine ⟨?_, by decide, ?_⟩
  · intro s1 s2 s3 s4 s5 s6 s7 name
    simp [group_unused, unused_flag_eq_one]
  · intro pols titles prestages name hm
    have h1 : unused_flag titles name ≠ 1 := by
      intro h
      rcases (unused_flag_eq_one titles name).mp h with he | hn
      · rw [he] at hm; simp at hm
      · exact hn hm
    simp only [package_unused, decide_eq_false_iff_not]
    rintro ⟨-, ht, -⟩
    exact h1 ht

/-- Witness for C4: the Marketing scenario pushed through the iff (all
seven sets empty), and a package named Chrome.pkg present in a one-element
patch-title reference set classifies as Used. -/
theorem usage_verdict_absent_from_all_sets_witness :
    (∀ s ∈ [([] : List String), [], [], [], [], [], []], s = [] ∨ "Marketing" ∉ s)
    ∧ ("Chrome.pkg" ∈ ["Chrome.pkg"]
        ∧ package_unused [] ["Chrome.pkg"] [] "Chrome.pkg" = false) :=
  ⟨(usage_verdict_absent_from_all_sets.1 [] [] [] [] [] [] [] "Marketing").mp
      usage_verdict_absent_from_all_sets.2.1,
   by decide,
   usage_verdict_absent_from_all_sets.2.2 [] ["Chrome.pkg"] [] "Chrome.pkg" (by decide)⟩

/-- C6: for a fixed candidate name and fixed reference-set contents,
adding one more non-empty reference set to the conjunction can only change
the verdict from Unused to Used (a Used verdict stays Used, equivalently
an Unused verdict after the addition was already Unused before); and the
package verdict of the source is exactly this conjunction at its three
sets. -/
theorem usage_monotonic_in_reference_sets :
    (∀ name sets extra, extra ≠ ([] : List String) →
      classify_unused name sets = false → classify_unused name (sets ++ [extra]) = false)
    ∧ (∀ name sets extra, extra ≠ ([] : List String) →
      classify_unused name (sets ++ [extra]) = true → classify_unused name sets = true)
    ∧ (∀ pols titles prestages name,
      package_unused pols titles prestages name =
        classify_unused name [pols, titles, prestages]) := by
  refine ⟨?_, ?_, ?_⟩
  · intro name sets extra _ h
    unfold classify_unused at *
    rw [List.all_append, h, Bool.false_and]
  · intro name sets extra _ h
    unfold classify_unused at *
    rw [List.all_append, Bool.and_eq_true] at h
    exact h.1
  · intro pols titles prestages name
    by_cases ha : unused_flag pols name = 1 <;>
      by_cases hb : unused_flag titles name = 1 <;>
        by_cases hc : unused_flag prestages name = 1 <;>
          simp [package_unused, classify_unused, ha, hb, hc]

/-- Witness for C6: a candidate named A, Unused with the one-set gather
[[B]], stays accounted for under both directions at concrete inputs: a
Used verdict on [[A]] stays Used after adding the non-empty set [B], and
an Unused verdict on [] ++ [[B]] was already Unused on []. -/
theorem usage_monotonic_in_reference_sets_witness :
    (["B"] ≠ ([] : List String))
    ∧ classify_unused "A" ([["A"]] ++ [["B"]]) = false
    ∧ classify_unused "A" [] = true :=
  ⟨by decide,
   usage_monotonic_in_reference_sets.1 "A" [["A"]] ["B"] (by decide) (by decide),
   usage_monotonic_in_reference_sets.2.1 "A" [] ["B"] (by decide) (by decide)⟩

/-- Key membership after a dict append. -/
theorem dict_has_key_append (d : List (PyKey × String)) (k k' : PyKey) (v : String) :
    dict_has_key (d ++ [(k, v)]) k' = (dict_has_key d k' || decide (k' = k)) := by
  simp [dict_has_key, List.any_append, eq_comm]

/-- Inserting a key that is not present appends the pair. -/
theorem dict_insert_fresh (k : PyKey) (v : String) (d : List (PyKey × String))
    (h : dict_has_key d k = false) : dict_insert k v d = d ++ [(k, v)] := by
  simp [dict_insert, h]

/-- dict_insert never removes a key. -/
theorem dict_has_key_insert_of (d : List (PyKey × String)) (k k' : PyKey) (v : String)
    (h : dict_has_key d k' = true) :
    dict_has_key (dict_insert k v d) k' = true := by
  by_cases hc : dict_has_key d k = true
  · unfold dict_insert
    rw [if_pos hc]
    obtain ⟨e, he, hp⟩ := List.any_eq_true.mp h
    have hek : e.1 = k' := of_decide_eq_true hp
    apply List.any_eq_true.mpr
    refine ⟨if e.1 = k then (k, v) else e, List.mem_map_of_mem _ he, ?_⟩
    by_cases hk : e.1 = k
    · rw [if_pos hk]
      simp only [decide_eq_true_eq]
      rw [← hk]
      exact hek
    · rw [if_neg hk]
      exact hp
  · simp only [Bool.not_eq_true] at hc
    rw [dict_insert_fresh k v d hc, dict_has_key_append, h, Bool.true_or]

/-- Keys of dict_insert come from the dict or are the inserted key. -/
theorem dict_has_key_insert_elim (d : List (PyKey × String)) (k k' : PyKey) (v : String)
    (h : dict_has_key (dict_insert k v d) k' = true) :
    dict_has_key d k' = true ∨ k' = k := by
  by_cases hc : dict_has_key d k = true
  · unfold dict_insert at h
    rw [if_pos hc] at h
    obtain ⟨x, hx, hp⟩ := List.any_eq_true.mp h
    obtain ⟨e, he, hfe⟩ := List.mem_map.mp hx
    have hxk : x.1 = k' := of_decide_eq_true hp
    by_cases hk : e.1 = k
    · right
      rw [if_pos hk] at hfe
      rw [← hfe] at hxk
      exact hxk.symm
    · left
      rw [if_neg hk] at hfe
      subst hfe
      exact List.any_eq_true.mpr ⟨e, he, hp⟩
  · simp only [Bool.not_eq_true] at hc
    rw [dict_insert_fresh k v d hc, dict_has_key_append] at h
    simp only [Bool.or_eq_true] at h
    rcases h with h1 | h2
    · exact Or.inl h1
    · exact Or.inr (of_decide_eq_true h2)

/-- The classify step never removes a key from the used dict. -/
theorem classify_step_used_mono (pols titles prestages : List String)
    (acc : List (PyKey × String) × List (PyKey × String)) (pkg : Package) (k : PyKey)
    (h : dict_has_key acc.1 k = true) :
    dict_has_key (classify_package pols titles prestages acc pkg).1 k = true := by
  unfold classify_package
  split_ifs with h1 h2
  · exact h
  · exact h
  · exact dict_has_key_insert_of _ _ _ _ h

/-- The classify step never removes a key from the unused dict. -/
theorem classify_step_unused_mono (pols titles prestages : List String)
    (acc : List (PyKey × String) × List (PyKey × String)) (pkg : Package) (k : PyKey)
    (h : dict_has_key acc.2 k = true) :
    dict_has_key (classify_package pols titles prestages acc pkg).2 k = true := by
  unfold classify_package
  split_ifs with h1 h2
  · exact dict_has_key_insert_of _ _ _ _ h
  · exact h
  · exact h

/-- A key of the used dict after the classify step was already there or is
the id of the processed package. -/
theorem classify_step_used_provenance (pols titles prestages : List String)
    (acc : List (PyKey × String) × List (PyKey × String)) (pkg : Package) (k : PyKey)
    (h : dict_has_key (classify_package pols titles prestages acc pkg).1 k = true) :
    dict_has_key acc.1 k = true ∨ k = pkg.id := by
  unfold classify_package at h
  split_ifs at h with h1 h2
  · exact Or.inl h
  · exact Or.inl h
  · exact dict_has_key_insert_elim _ _ _ _ h

/-- A key of the unused dict after the classify step was already there or
is the id of the processed package. -/
theorem classify_step_unused_provenance (pols titles prestages : List String)
    (acc : List (PyKey × String) × List (PyKey × String)) (pkg : Package) (k : PyKey)
    (h : dict_has_key (classify_package pols titles prestages acc pkg).2 k = true) :
    dict_has_key acc.2 k = true ∨ k = pkg.id := by
  unfold classify_package at h
  split_ifs at h with h1 h2
  · exact dict_has_key_insert_elim _ _ _ _ h
  · exact Or.inl h
  · exact Or.inl h

/-- Keys of the used dict persist through the whole classify fold. -/
theorem classify_fold_used_mono (pols titles prestages : List String) :
    ∀ (pkgs : List Package) (acc : List (PyKey × String) × List (PyKey × String)) (k : PyKey),
      dict_has_key acc.1 k = true →
      dict_has_key (pkgs.foldl (classify_package pols titles prestages) acc).1 k = true := by
  intro pkgs
  induction pkgs with
  | nil => intro acc k h; simpa using h
  | cons q rest ih =>
    intro acc k h
    rw [List.foldl_cons]
    exact ih _ k (classify_step_used_mono _ _ _ _ _ _ h)

/-- Keys of the unused dict persist through the whole classify fold. -/
theorem classify_fold_unused_mono (pols titles prestages : List String) :
    ∀ (pkgs : List Package) (acc : List (PyKey × String) × List (PyKey × String)) (k : PyKey),
      dict_has_key acc.2 k = true →
      dict_has_key (pkgs.foldl (classify_package pols titles prestages) acc).2 k = true := by
  intro pkgs
  induction pkgs with
  | nil => intro acc k h; simpa using h
  | cons q rest ih =>
    intro acc k h
    rw [List.foldl_cons]
    exact ih _ k (classify_step_unused_mono _ _ _ _ _ _ h)

/-- A key of the used dict after the classify fold was already there or is
the id of one of the processed packages. -/
theorem classify_fold_used_provenance (pols titles prestages : List String) :
    ∀ (pkgs : List Package) (acc : List (PyKey × String) × List (PyKey × String)) (k : PyKey),
      dict_has_key (pkgs.foldl (classify_package pols titles prestages) acc).1 k = true →
      dict_has_key acc.1 k = true ∨ ∃ p ∈ pkgs, k = p.id := by
  intro pkgs
  induction pkgs with
  | nil => intro acc k h; exact Or.inl (by simpa using h)
  | cons q rest ih =>
    intro acc k h
    rw [List.foldl_cons] at h
    rcases ih _ k h with h1 | ⟨p, hp, hk⟩
    · rcases classify_step_used_provenance _ _ _ _ _ _ h1 with h2 | h2
      · exact Or.inl h2
      · exact Or.inr ⟨q, List.mem_cons_self _ _, h2⟩
    · exact Or.inr ⟨p, List.mem_cons_of_mem _ hp, hk⟩

/-- A key of the unused dict after the classify fold was already there or
is the id of one of the processed packages. -/
theorem classify_fold_unused_provenance (pols titles prestages : List String) :
    ∀ (pkgs : List Package) (acc : List (PyKey × String) × List (PyKey × String)) (k : PyKey),
      dict_has_key (pkgs.foldl (classify_package pols titles prestages) acc).2 k = true →
      dict_has_key acc.2 k = true ∨ ∃ p ∈ pkgs, k = p.id := by
  intro pkgs
  induction pkgs with
  | nil => intro acc k h; exact Or.inl (by simpa using h)
  | cons q rest ih =>
    intro acc k h
    rw [List.foldl_cons] at h
    rcases ih _ k h with h1 | ⟨p, hp, hk⟩
    · rcases classify_step_unused_provenance _ _ _ _ _ _ h1 with h2 | h2
      · exact Or.inl h2
      · exact Or.inr ⟨q, List.mem_cons_self _ _, h2⟩
    · exact Or.inr ⟨p, List.mem_cons_of_mem _ hp, hk⟩

/-- Fold invariant behind the partition property: starting from
accumulators whose used keys are all integer keys, and which contain none
of the ids of the remaining (distinct, integer-keyed) packages, every
remaining package ends up with its id in exactly one of the two dicts. -/
theorem classify_fold_partition (pols titles prestages : List String) :
    ∀ (pkgs : List Package) (used unused : List (PyKey × String)),
      (∀ k, dict_has_key used k = true → ∃ i, k = PyKey.vint i) →
      (pkgs.map Package.id).Nodup →
      (∀ p ∈ pkgs, ∃ i, p.id = PyKey.vint i) →
      (∀ p ∈ pkgs, dict_has_key used p.id = false ∧ dict_has_key unused p.id = false) →
      ∀ p ∈ pkgs,
        (dict_has_key (pkgs.foldl (classify_package pols titles prestages) (used, unused)).1 p.id = true ∧
          dict_has_key (pkgs.foldl (classify_package pols titles prestages) (used, unused)).2 p.id = false) ∨
        (dict_has_key (pkgs.foldl (classify_package pols titles prestages) (used, unused)).1 p.id = false ∧
          dict_has_key (pkgs.foldl (classify_package pols titles prestages) (used, unused)).2 p.id = true) := by
  intro pkgs
  induction pkgs with
  | nil => intro _ _ _ _ _ _ p hp; simp at hp
  | cons q rest ih =>
    intro used unused hvint hnodup hids hfresh p hp
    rw [List.foldl_cons]
    have hqfresh := hfresh q (List.mem_cons_self _ _)
    have hqid : ∃ i, q.id = PyKey.vint i := hids q (List.mem_cons_self _ _)
    have hnodup' : (rest.map Package.id).Nodup := by
      rw [List.map_cons, List.nodup_cons] at hnodup; exact hnodup.2
    have hqnotin : q.id ∉ rest.map Package.id := by
      rw [List.map_cons, List.nodup_cons] at hnodup; exact hnodup.1
    by_cases hv : package_unused pols titles prestages q.name = true
    · have hstep : classify_package pols titles prestages (used, unused) q
          = (used, unused ++ [(q.id, q.name)]) := by
        unfold classify_package
        rw [if_pos hv, dict_insert_fresh _ _ _ hqfresh.2]
      rw [hstep]
      rcases List.mem_cons.mp hp with rfl | hpr
      · right
        constructor
        · by_contra hcon
          rw [Bool.not_eq_false] at hcon
          rcases classify_fold_used_provenance pols titles prestages rest _ _ hcon
            with h1 | ⟨r, hr, hre⟩
          · exact absurd h1 (by rw [hqfresh.1]; exact Bool.false_ne_true)
          · exact hqnotin (by rw [hre]; exact List.mem_map_of_mem Package.id hr)
        · apply classify_fold_unused_mono
          rw [dict_has_key_append]
          simp
      · apply ih used (unused ++ [(q.id, q.name)]) hvint hnodup'
          (fun r hr => hids r (List.mem_cons_of_mem _ hr)) ?_ p hpr
        intro r hr
        refine ⟨(hfresh r (List.mem_cons_of_mem _ hr)).1, ?_⟩
        rw [dict_has_key_append, (hfresh r (List.mem_cons_of_mem _ hr)).2]
        have hne : r.id ≠ q.id := fun he =>
          hqnotin (by rw [← he]; exact List.mem_map_of_mem Package.id hr)
        simp [hne]
    · have hguard : ¬ dict_has_key used (PyKey.vstr q.name) = true := by
        intro hcon
        obtain ⟨i, hi⟩ := hvint _ hcon
        cases hi
      have hstep : classify_package pols titles prestages (used, unused) q
          = (used ++ [(q.id, q.name)], unused) := by
        unfold classify_package
        rw [if_neg hv, if_pos hguard, dict_insert_fresh _ _ _ hqfresh.1]
      rw [hstep]
      rcases List.mem_cons.mp hp with rfl | hpr
      · left
        constructor
        · apply classify_fold_used_mono
          rw [dict_has_key_append]
          simp
        · by_contra hcon
          rw [Bool.not_eq_false] at hcon
          rcases classify_fold_unused_provenance pols titles prestages rest _ _ hcon
            with h1 | ⟨r, hr, hre⟩
          · exact absurd h1 (by rw [hqfresh.2]; exact Bool.false_ne_true)
          · exact hqnotin (by rw [hre]; exact List.mem_map_of_mem Package.id hr)
      · apply ih (used ++ [(q.id, q.name)]) unused ?_ hnodup'
          (fun r hr => hids r (List.mem_cons_of_mem _ hr)) ?_ p hpr
        · intro k hk
          rw [dict_has_key_append] at hk
          simp only [Bool.or_eq_true] at hk
          rcases hk with hk | hk
          · exact hvint k hk
          · obtain ⟨i, hi⟩ := hqid
            exact ⟨i, by rw [of_decide_eq_true hk, hi]⟩
        · intro r hr
          refine ⟨?_, (hfresh r (List.mem_cons_of_mem _ hr)).2⟩
          rw [dict_has_key_append, (hfresh r (List.mem_cons_of_mem _ hr)).1]
          have hne : r.id ≠ q.id := fun he =>
            hqnotin (by rw [← he]; exact List.mem_map_of_mem Package.id hr)
          simp [hne]

/-- C5: every resource returned by the full listing during a
usage-resolver run appears in exactly one of the two output dicts (Used
and Unused partition the candidates).  The listing hypotheses (IsListing)
record that a listing carries unique, integer ids, so the guard in the
source that tests the string name of a candidate against the id keys of
the used dict
can never drop a candidate. -/
theorem used_unused_partition (pols titles prestages : List String)
    (pkgs : List Package) (hl : IsListing pkgs) :
    ∀ p ∈ pkgs,
      (dict_has_key (classify_packages pols titles prestages pkgs).1 p.id = true ∧
        dict_has_key (classify_packages pols titles prestages pkgs).2 p.id = false) ∨
      (dict_has_key (classify_packages pols titles prestages pkgs).1 p.id = false ∧
        dict_has_key (classify_packages pols titles prestages pkgs).2 p.id = true) := by
  intro p hp
  exact classify_fold_partition pols titles prestages pkgs [] []
    (fun k hk => absurd hk (by simp [dict_has_key])) hl.1 hl.2
    (fun r _ => ⟨rfl, rfl⟩) p hp

/-- Witness for C5 at a concrete two-package listing: with Chrome.pkg
referenced by one policy, Chrome (id 1) and Firefox (id 2) each land in
exactly one of the two output dicts. -/
theorem used_unused_partition_witness :
    IsListing [⟨PyKey.vint 1, "Chrome.pkg"⟩, ⟨PyKey.vint 2, "Firefox.pkg"⟩]
    ∧ ((dict_has_key (classify_packages ["Chrome.pkg"] [] []
          [⟨PyKey.vint 1, "Chrome.pkg"⟩, ⟨PyKey.vint 2, "Firefox.pkg"⟩]).1 (PyKey.vint 2) = true ∧
        dict_has_key (classify_packages ["Chrome.pkg"] [] []
          [⟨PyKey.vint 1, "Chrome.pkg"⟩, ⟨PyKey.vint 2, "Firefox.pkg"⟩]).2 (PyKey.vint 2) = false) ∨
       (dict_has_key (classify_packages ["Chrome.pkg"] [] []
          [⟨PyKey.vint 1, "Chrome.pkg"⟩, ⟨PyKey.vint 2, "Firefox.pkg"⟩]).1 (PyKey.vint 2) = false ∧
        dict_has_key (classify_packages ["Chrome.pkg"] [] []
          [⟨PyKey.vint 1, "Chrome.pkg"⟩, ⟨PyKey.vint 2, "Firefox.pkg"⟩]).2 (PyKey.vint 2) = true)) := by
  have hl : IsListing [⟨PyKey.vint 1, "Chrome.pkg"⟩, ⟨PyKey.vint 2, "Firefox.pkg"⟩] := by
    refine ⟨by decide, ?_⟩
    intro p hp
    simp only [List.mem_cons, List.not_mem_nil, or_false] at hp
    rcases hp with rfl | rfl
    · exact ⟨1, rfl⟩
    · exact ⟨2, rfl⟩
  exact ⟨hl, used_unused_partition ["Chrome.pkg"] [] [] _ hl
    ⟨PyKey.vint 2, "Firefox.pkg"⟩ (by decide)⟩

/-- hasHeader only looks at adjacent pairs, so it survives a cons. -/
theorem hasHeader_cons_of (x : String) (xs : List String) (h : String)
    (hh : hasHeader xs h = true) : hasHeader (x :: xs) h = true := by
  cases xs with
  | nil => simp [hasHeader] at hh
  | cons b rest =>
    unfold hasHeader
    rw [hh, Bool.or_true]

/-- C7 counterexample: the command built for a GET against the
chat-webhook host keeps the Bearer authorization header (only a POST to
that host rebuilds the command without it), contradicting the claim that
no bearer header is sent with any request executed against the webhook
host. -/
theorem webhook_get_keeps_bearer_header :
    hasHeader
      (buildCurlCmd "GET" "https://hooks.slack.com/services/T0/B0" "tok" "" false)
      ("authorization: Bearer " ++ "tok") = true := by
  decide

/-- C7 amended: auth selection of the Transport command builder.  A URL
containing the token-endpoint marker and not the chat-service marker gets
a Basic authorization header; a URL without the token marker gets a Bearer
header unless the request is a POST to the chat-webhook host, in which
case the command is rebuilt from scratch (and so carries no authorization
header and no credential at all); a URL containing both markers gets
no authorization header (the built command does not depend on the
credential). -/
theorem transport_auth_selection (method url auth data : String) (xml : Bool) :
    (strIn "/token" url = true → strIn "slack" url = false →
      hasHeader (buildCurlCmd method url auth data xml)
        ("authorization: Basic " ++ auth) = true)
    ∧ (strIn "/token" url = false → ¬(method = "POST" ∧ strIn "hooks.slack.com" url = true) →
      hasHeader (buildCurlCmd method url auth data xml)
        ("authorization: Bearer " ++ auth) = true)
    ∧ (method = "POST" → strIn "hooks.slack.com" url = true →
      buildCurlCmd method url auth data xml =
        ["/usr/bin/curl", "-X", method, "-H", "Content-type: application/json",
         "--data", data, url])
    ∧ (strIn "/token" url = true → strIn "slack" url = true →
      ∀ auth2, buildCurlCmd method url auth data xml =
        buildCurlCmd method url auth2 data xml) := by
  refine ⟨?_, ?_, ?_, ?_⟩
  · intro htok hsl
    have hnb : ¬ strIn "hooks.slack.com" url = true := by
      intro hc
      have hs := strIn_trans "slack" "hooks.slack.com" url (by decide) hc
      rw [hsl] at hs
      cases hs
    unfold buildCurlCmd
    simp only [htok, not_true, if_false, hsl, Bool.false_eq_true, not_false_iff, if_true]
    split_ifs with h1 h2 h3 h4 h5 <;>
      first
        | exact absurd h3.2 hnb
        | (simp only [List.cons_append, List.nil_append, List.append_assoc]
           iterate 10 apply hasHeader_cons_of
           unfold hasHeader
           simp)
  · intro htok hns
    unfold buildCurlCmd
    simp only [htok, Bool.false_eq_true, not_false_iff, if_true]
    split_ifs with h1 h2 h3 h4 h5 <;>
      first
        | exact absurd h3 hns
        | exact absurd h2 hns
        | (simp only [List.cons_append, List.nil_append, List.append_assoc]
           iterate 10 apply hasHeader_cons_of
           unfold hasHeader
           simp)
  · intro hm hs
    subst hm
    unfold buildCurlCmd
    simp [hs]
  · intro htok hsl auth2
    unfold buildCurlCmd
    simp [htok, hsl]

/-- Witness for C7 amended: the token endpoint gets a Basic header even on
a POST, and the webhook POST command is rebuilt without any authorization
element. -/
theorem transport_auth_selection_witness :
    (strIn "/token" "https://jss.example.com/api/v1/auth/token" = true
      ∧ strIn "slack" "https://jss.example.com/api/v1/auth/token" = false
      ∧ hasHeader (buildCurlCmd "POST" "https://jss.example.com/api/v1/auth/token"
          "abc" "" false) ("authorization: Basic " ++ "abc") = true)
    ∧ buildCurlCmd "POST" "https://hooks.slack.com/services/T0/B0" "abc" "payload" false
        = ["/usr/bin/curl", "-X", "POST", "-H", "Content-type: application/json",
           "--data", "payload", "https://hooks.slack.com/services/T0/B0"] :=
  ⟨⟨by decide, by decide,
    (transport_auth_selection "POST" "https://jss.example.com/api/v1/auth/token"
      "abc" "" false).1 (by decide) (by decide)⟩,
   (transport_auth_selection "POST" "https://hooks.slack.com/services/T0/B0"
      "abc" "payload" false).2.2.1 rfl (by decide)⟩

/-- C8: in the per-item step, an item is deleted iff bulk deletion was
confirmed upfront, or the id of the item passes the allow-list filter (member
of the supplied list, or no list supplied) and the interactive per-item
confirmation answers yes; and with a non-empty allow-list not containing
the id, the item is skipped regardless of the answers. -/
theorem delete_item_step_iff {α : Type} [DecidableEq α]
    (delete_all : Bool) (id_list : List α) (obj_id : α) (answers : List String) :
    (delete_item_step delete_all id_list obj_id answers = some StepResult.deleted ↔
      (delete_all = true ∨ ((obj_id ∈ id_list ∨ id_list = []) ∧
        confirm false answers = some (ConfirmResult.ret true))))
    ∧ (delete_all = false → id_list ≠ [] → obj_id ∉ id_list →
        delete_item_step delete_all id_list obj_id answers = some StepResult.skipped) := by
  constructor
  · cases delete_all with
    | true => simp [delete_item_step]
    | false =>
      simp only [delete_item_step, Bool.false_eq_true, if_false, false_or]
      by_cases hg : obj_id ∈ id_list ∨ id_list = []
      · rw [if_pos hg]
        rcases hc : confirm false answers with - | r
        · simp [hg]
        · rcases r with b | -
          · cases b <;> simp [hg]
          · simp [hg]
      · rw [if_neg hg]
        simp [hg]
  · intro hd hne hnm
    rw [hd]
    unfold delete_item_step
    rw [if_neg (by simp), if_neg (fun hg => hg.elim hnm hne)]

/-- Witness for C8: with bulk declined and the allow-list ["12"], the item
with id 7 is skipped even though the answer stream would say yes. -/
theorem delete_item_step_iff_witness :
    ((false : Bool) = false) ∧ (["12"] ≠ ([] : List String)) ∧ ("7" ∉ ["12"])
    ∧ delete_item_step false ["12"] "7" ["y"] = some StepResult.skipped :=
  ⟨rfl, by decide, by decide,
   (delete_item_step_iff false ["12"] "7" ["y"]).2 rfl (by decide) (by decide)⟩

/-- C10: the confirmation prompts of the orchestrator run with default False
(the embedded steps call confirm false), and confirm returns the default
on an empty answer; hence ENTER at the bulk prompt leaves bulk deletion
off, ENTER at a per-item prompt never deletes, a True return requires an
explicit y or Y answer somewhere in the stream, y/Y return True, n/N and
an empty answer return False, and q/Q terminate the process. -/
theorem empty_answer_never_deletes :
    (∀ rest : List String, confirm false ("" :: rest) = some (ConfirmResult.ret false))
    ∧ (∀ answers : List String, confirm false answers = some (ConfirmResult.ret true) →
        ∃ a ∈ answers, a = "y" ∨ a = "Y")
    ∧ (∀ (d : Bool) (rest : List String),
        confirm d ("y" :: rest) = some (ConfirmResult.ret true)
        ∧ confirm d ("Y" :: rest) = some (ConfirmResult.ret true)
        ∧ confirm d ("n" :: rest) = some (ConfirmResult.ret false)
        ∧ confirm d ("N" :: rest) = some (ConfirmResult.ret false)
        ∧ confirm d ("q" :: rest) = some ConfirmResult.quit
        ∧ confirm d ("Q" :: rest) = some ConfirmResult.quit)
    ∧ (∀ rest : List String, delete_all_chosen ("" :: rest) = some false)
    ∧ (∀ (id_list : List String) (obj_id : String) (rest : List String),
        delete_item_step false id_list obj_id ("" :: rest) ≠ some StepResult.deleted)
    ∧ (∀ rest : List String,
        group_delete_step false ("" :: rest) ≠ some StepResult.deleted) := by
  have hempty : ∀ rest : List String,
      confirm false ("" :: rest) = some (ConfirmResult.ret false) := by
    intro rest
    simp [confirm]
  refine ⟨hempty, ?_, ?_, ?_, ?_, ?_⟩
  · intro answers
    induction answers with
    | nil => intro h; simp [confirm] at h
    | cons a rest ih =>
      intro h
      unfold confirm at h
      by_cases ha : a = ""
      · rw [if_pos ha] at h
        simp at h
      · rw [if_neg ha] at h
        by_cases hv : a ∉ ["y", "Y", "n", "N", "q", "Q"]
        · rw [if_pos hv] at h
          obtain ⟨b, hb, hyy⟩ := ih h
          exact ⟨b, List.mem_cons_of_mem _ hb, hyy⟩
        · rw [if_neg hv] at h
          by_cases hy : a = "y" ∨ a = "Y"
          · exact ⟨a, List.mem_cons_self _ _, hy⟩
          · rw [if_neg hy] at h
            by_cases hn : a = "n" ∨ a = "N"
            · rw [if_pos hn] at h
              simp at h
            · rw [if_neg hn] at h
              simp at h
  · intro d rest
    refine ⟨?_, ?_, ?_, ?_, ?_, ?_⟩ <;> simp [confirm]
  · intro rest
    simp [delete_all_chosen, hempty rest]
  · intro id_list obj_id rest
    unfold delete_item_step
    rw [if_neg (by simp)]
    by_cases hg : obj_id ∈ id_list ∨ id_list = []
    · rw [if_pos hg, hempty rest]
      simp
    · rw [if_neg hg]
      simp
  · intro rest
    unfold group_delete_step
    rw [if_neg (by simp), hempty rest]
    simp

/-- Witness for C10: a yes somewhere in the stream is what a True return
requires; applying the theorem to the concrete stream [x, y] yields that
explicit y, and the concrete per-item step with an ENTER answer does not
delete. -/
theorem empty_answer_never_deletes_witness :
    (confirm false ["x", "y"] = some (ConfirmResult.ret true)
      ∧ ∃ a ∈ ["x", "y"], a = "y" ∨ a = "Y")
    ∧ delete_all_chosen [""] = some false
    ∧ delete_item_step false ["3"] "3" [""] ≠ some StepResult.deleted :=
  ⟨⟨by decide, empty_answer_never_deletes.2.1 ["x", "y"] (by decide)⟩,
   empty_answer_never_deletes.2.2.2.1 [],
   empty_answer_never_deletes.2.2.2.2.1 ["3"] "3" []⟩

/-- The last element reported by getLast? is a member of the list. -/
theorem mem_of_getLast_some (l : List String) (a : String)
    (h : l.getLast? = some a) : a ∈ l := by
  induction l with
  | nil => simp at h
  | cons b rest ih =>
    cases rest with
    | nil =>
      simp only [List.getLast?_singleton, Option.some.injEq] at h
      rw [h]
      exact List.mem_cons_self _ _
    | cons c rest2 =>
      rw [List.getLast?_cons_cons] at h
      exact List.mem_cons_of_mem _ (ih h)

/-- C9: if the response headers of the first call contain APBALANCEID
lines, the second call persists the last such line to the cookie jar and
attaches the extracted cookie value with a --cookie flag on its own
request. -/
theorem sticky_cookie_reused_on_next_request (st0 : TmpState)
    (H1 H2 : List String) (h : String)
    (hlast : (H1.filter (fun x => strIn "APBALANCEID" x)).getLast? = some h) :
    (transport_session (transport_session st0 H1).2 H2).2.cookieJar = some [h]
    ∧ (transport_session (transport_session st0 H1).2 H2).1 =
        ["--cookie", extract_cookie h] := by
  have hmem : h ∈ H1.filter (fun x => strIn "APBALANCEID" x) :=
    mem_of_getLast_some _ _ hlast
  have hA : strIn "APBALANCEID" h = true := (List.mem_filter.mp hmem).2
  have hst1 : (transport_session st0 H1).2 =
      ⟨some H1, write_session st0⟩ := rfl
  have hw : write_session ⟨some H1, write_session st0⟩ = some [h] := by
    unfold write_session
    simp [hlast]
  constructor
  · rw [hst1]
    show (write_session ⟨some H1, write_session st0⟩) = some [h]
    exact hw
  · rw [hst1]
    show read_session (write_session ⟨some H1, write_session st0⟩) =
      ["--cookie", extract_cookie h]
    rw [hw]
    unfold read_session
    simp [hA]

/-- Witness for C9: a concrete first response carrying a load-balancer
Set-Cookie line; the second request gets the stripped cookie value. -/
theorem sticky_cookie_reused_on_next_request_witness :
    ((["HTTP/1.1 200", "Set-Cookie: APBALANCEID=abc.node1; path=/;"].filter
        (fun x => strIn "APBALANCEID" x)).getLast?
      = some "Set-Cookie: APBALANCEID=abc.node1; path=/;")
    ∧ (transport_session
        (transport_session ⟨none, none⟩
          ["HTTP/1.1 200", "Set-Cookie: APBALANCEID=abc.node1; path=/;"]).2
        ["HTTP/1.1 200"]).1 =
      ["--cookie", extract_cookie "Set-Cookie: APBALANCEID=abc.node1; path=/;"]
    ∧ extract_cookie "Set-Cookie: APBALANCEID=abc.node1; path=/;"
      = "APBALANCEID=abc.node1" :=
  ⟨by decide,
   (sticky_cookie_reused_on_next_request ⟨none, none⟩
      ["HTTP/1.1 200", "Set-Cookie: APBALANCEID=abc.node1; path=/;"]
      ["HTTP/1.1 200"]
      "Set-Cookie: APBALANCEID=abc.node1; path=/;" (by decide)).2,
   by decide⟩
